import Mathlib

/-!
Verification of the cypress-framework repository core: the environment
configuration resolver in `cypress.config.ts` (`setupNodeEvents`), the
tag-expression filter registered through `@cypress/grep`, and the
session-scoped credential cache used by the custom `login` command.

JavaScript objects are embedded as association lists from string keys to
primitive values; property read, property assignment and object spread are
embedded as `lookupA`, `setA` and `spreadObj`. All lookups take the first
binding of a key, matching the unique-key discipline of JavaScript objects.
-/

namespace CypressFramework

/-- Association-list lookup: first binding of the key wins. -/
def lookupA {κ α : Type} [DecidableEq κ] : List (κ × α) → κ → Option α
  | [], _ => none
  | (k, v) :: t, k₀ => if k = k₀ then some v else lookupA t k₀

/-- Property assignment `o.k = v`: replace the first binding of `k` in
place when present, append a binding otherwise. -/
def setA {κ α : Type} [DecidableEq κ] : List (κ × α) → κ → α → List (κ × α)
  | [], k, v => [(k, v)]
  | (k₁, v₁) :: t, k, v => if k₁ = k then (k, v) :: t else (k₁, v₁) :: setA t k v

/-- Object spread of `b` onto `a`: every key of `a` takes the value `b`
gives it when `b` binds it, and the remaining bindings of `b` follow, so
that under first-binding lookup `b` wins on every conflict. -/
def spreadObj {κ α : Type} [DecidableEq κ] : List (κ × α) → List (κ × α) → List (κ × α)
  | [], b => b
  | (k₁, v₁) :: t, b => (k₁, (lookupA b k₁).getD v₁) :: spreadObj t b

theorem lookupA_setA_self {κ α : Type} [DecidableEq κ] (o : List (κ × α)) (k : κ) (v : α) :
    lookupA (setA o k v) k = some v := by
  induction o with
  | nil => simp [setA, lookupA]
  | cons p t ih =>
    obtain ⟨k₁, v₁⟩ := p
    by_cases h : k₁ = k
    · simp [setA, h, lookupA]
    · simp [setA, h, lookupA, ih]

theorem lookupA_setA_ne {κ α : Type} [DecidableEq κ] (o : List (κ × α)) (k k' : κ) (v : α)
    (h : k' ≠ k) : lookupA (setA o k v) k' = lookupA o k' := by
  induction o with
  | nil =>
    simp only [setA, lookupA]
    rw [if_neg (fun hc : k = k' => h hc.symm)]
  | cons p t ih =>
    obtain ⟨k₁, v₁⟩ := p
    by_cases h₁ : k₁ = k
    · subst h₁
      simp only [setA, if_pos rfl, lookupA]
      rw [if_neg (fun hc : k₁ = k' => h hc.symm), if_neg (fun hc : k₁ = k' => h hc.symm)]
    · by_cases h₂ : k₁ = k'
      · simp only [setA, if_neg h₁, lookupA, if_pos h₂]
      · simp only [setA, if_neg h₁, lookupA, if_neg h₂, ih]

/-- First-defined option: `orO a b` is `a` when `a` is `some`, else `b`. -/
def orO {α : Type} (a b : Option α) : Option α :=
  match a with
  | some v => some v
  | none => b

theorem lookupA_spreadObj {κ α : Type} [DecidableEq κ] (a b : List (κ × α)) (k : κ) :
    lookupA (spreadObj a b) k = orO (lookupA b k) (lookupA a k) := by
  induction a with
  | nil =>
    simp only [spreadObj]
    cases hb : lookupA b k <;> simp [lookupA, hb, orO]
  | cons p t ih =>
    obtain ⟨k₁, v₁⟩ := p
    by_cases h : k₁ = k
    · subst h
      cases hb : lookupA b k₁ <;> simp [spreadObj, lookupA, hb, orO]
    · cases hb : lookupA b k <;> simp [spreadObj, lookupA, h, ih, hb, orO]

/-! ## Environment configuration resolver (`cypress.config.ts`, `setupNodeEvents`) -/

/-- Primitive JavaScript values occurring in the configuration objects of
this repository: strings, integers, booleans, and `undefined` (which a
property assignment can store, as `config.baseUrl = envConfig.baseUrl`
does when the overlay module exports no `baseUrl`). -/
inductive Prim : Type where
  | undef : Prim
  | str : String → Prim
  | num : Int → Prim
  | bool : Bool → Prim
deriving DecidableEq, Repr

/-- JavaScript truthiness of a primitive value: `undefined`, the empty
string, `0` and `false` are falsy. -/
def primFalsy : Prim → Bool
  | .undef => true
  | .str s => s = ""
  | .num n => n = 0
  | .bool b => !b

/-- String coercion of a primitive value, as template interpolation
performs in the module path of the `require` call. -/
def primToString : Prim → String
  | .undef => "undefined"
  | .str s => s
  | .num n => toString n
  | .bool b => toString b

/-- The Cypress `config` object as `setupNodeEvents` manipulates it: its
scalar top-level fields (`baseUrl`, timeouts, retries, reporter options,
...) and its `env` sub-mapping. -/
structure Cfg : Type where
  top : List (String × Prim)
  env : List (String × Prim)
deriving DecidableEq, Repr

/-- An environment overlay module (`cypress/config/<name>.config.ts`
default export): its scalar top-level fields (`baseUrl` among them, when
present) and its `env` sub-mapping. -/
structure EnvModule : Type where
  top : List (String × Prim)
  env : List (String × Prim)
deriving DecidableEq, Repr

/-- Environment selection `config.env.environment || 'local'` followed by
string interpolation into the module path. -/
def selectedEnvironment (env : List (String × Prim)) : String :=
  match lookupA env "environment" with
  | none => "local"
  | some v => if primFalsy v then "local" else primToString v

/-- Message of the error Node raises when `require` cannot resolve the
interpolated module path for an unregistered environment name. -/
def cannotFindModule (environment : String) : String :=
  "Cannot find module ./cypress/config/" ++ environment ++ ".config"

/-- Lines 23-24 of `cypress.config.ts`: `config.baseUrl = envConfig.baseUrl`
(storing `undefined` when the overlay exports none) and
`config.env = \x7b ...config.env, ...envConfig.env \x7d`. -/
def applyOverlay (config : Cfg) (envConfig : EnvModule) : Cfg :=
  { top := setA config.top "baseUrl" ((lookupA envConfig.top "baseUrl").getD .undef),
    env := spreadObj config.env envConfig.env }

instance {ε α : Type} [DecidableEq ε] [DecidableEq α] : DecidableEq (Except ε α) := fun a b =>
  match a, b with
  | .ok a₁, .ok a₂ =>
    if h : a₁ = a₂ then .isTrue (h ▸ rfl) else .isFalse (fun hc => h (Except.ok.inj hc))
  | .error e₁, .error e₂ =>
    if h : e₁ = e₂ then .isTrue (h ▸ rfl) else .isFalse (fun hc => h (Except.error.inj hc))
  | .ok _, .error _ => .isFalse (fun hc => Except.noConfusion hc)
  | .error _, .ok _ => .isFalse (fun hc => Except.noConfusion hc)

/-- Lines 18-26 of `cypress.config.ts`: pick the environment name from
`config.env.environment` with fallback `'local'`, `require` the overlay
module for that name (an error when none is registered), and merge it
onto the config. The registry of overlay modules present on disk is the
`modules` association list. -/
def setupNodeEvents (config : Cfg) (modules : List (String × EnvModule)) : Except String Cfg :=
  match lookupA modules (selectedEnvironment config.env) with
  | none => .error (cannotFindModule (selectedEnvironment config.env))
  | some envConfig => .ok (applyOverlay config envConfig)

/-! ## Tag model and filter expressions (registered through `registerCypressGrep`) -/

/-- Modelled from the spec: the grammar and evaluator of the tag filter
live in the external `@cypress/grep` plugin, which is only registered by
`cypress.config.ts`; its normalization is "lower-cased, leading `@`
stripped internally". -/
def normalizeChars : List Char → List Char
  | '@' :: t => t.map Char.toLower
  | cs => cs.map Char.toLower

/-- Modelled from the spec: Tag normalization on strings, shared by the
TagSet construction and the expression parser. -/
def normalizeTag (s : String) : String :=
  String.mk (normalizeChars s.toList)

/-- Modelled from the spec: a TagSet is a set of normalized, deduplicated
tag labels; membership is the `t ∈ tags` of the evaluator semantics. -/
def mkTagSet (raw : List String) : List String :=
  (raw.map normalizeTag).dedup

/-- Modelled from the spec: the immutable FilterExpression tree with nodes
`Literal(tag)`, `And`, `Or`, `Not`, plus the universal-true expression that
an empty raw string parses to. -/
inductive FilterExpression : Type where
  | tru : FilterExpression
  | lit : String → FilterExpression
  | and : FilterExpression → FilterExpression → FilterExpression
  | or : FilterExpression → FilterExpression → FilterExpression
  | not : FilterExpression → FilterExpression
deriving DecidableEq, Repr

/-- Split a character list at every separator the predicate accepts,
keeping (possibly empty) chunks. -/
def splitChars (p : Char → Bool) : List Char → List (List Char)
  | [] => [[]]
  | c :: rest =>
    let r := splitChars p rest
    if p c then [] :: r
    else
      match r with
      | [] => [[c]]
      | h :: t => (c :: h) :: t

/-- Modelled from the spec: the raw filter string is cut into terms at
spaces and explicit commas; empty chunks are discarded. -/
def tokenize (raw : String) : List (List Char) :=
  (splitChars (fun c => c = ' ' || c = ',') raw.toList).filter (· ≠ [])

/-- Modelled from the spec: a `-` prefix on a term marks a NOT term. -/
def isNegToken : List Char → Bool
  | '-' :: _ => true
  | _ => false

/-- Tag carried by a NOT term: the characters after the `-`, normalized. -/
def negTag (tok : List Char) : String :=
  String.mk (normalizeChars (tok.drop 1))

/-- Fold a list of normalized tags into their AND. -/
def andOfList : List String → FilterExpression
  | [] => .tru
  | [t] => .lit t
  | t :: rest => .and (.lit t) (andOfList rest)

/-- Fold a list of expressions into their OR; the empty OR is the
universal-true expression. -/
def orOfList : List FilterExpression → FilterExpression
  | [] => .tru
  | [e] => e
  | e :: rest => .or e (orOfList rest)

/-- Modelled from the spec: a positive term is an AND of its `+`-separated
normalized tags. -/
def parseAndGroup (tok : List Char) : FilterExpression :=
  andOfList
    (((splitChars (fun c => c = '+') tok).filter (· ≠ [])).map
      (fun cs => String.mk (normalizeChars cs)))

/-- Modelled from the spec: `parse(raw)` — precedence OR (space or `,`),
AND (`+`), NOT (`-` prefix); per the specified examples a `-`-prefixed
term is conjoined as a negation with the OR of the positive terms, so
that `"@smoke -@skip"` is AND(smoke, NOT(skip)) while `"@smoke @api"` is
OR(smoke, api); the empty string parses to the universal-true
expression. -/
def parseFilter (raw : String) : FilterExpression :=
  (((tokenize raw).filter isNegToken).map negTag).foldl
    (fun e t => .and e (.not (.lit t)))
    (orOfList (((tokenize raw).filter (fun t => !(isNegToken t))).map parseAndGroup))

/-- Modelled from the spec: `evaluate(expr, tags)` — `Literal(t)` is true
iff `t ∈ tags`; `And`, `Or`, `Not` are the boolean connectives; the
universal-true expression holds on every TagSet. -/
def evaluate : FilterExpression → List String → Bool
  | .tru, _ => true
  | .lit t, tags => tags.contains t
  | .and l r, tags => evaluate l tags && evaluate r tags
  | .or l r, tags => evaluate l tags || evaluate r tags
  | .not e, tags => !(evaluate e tags)

/-- Literal tags occurring in an expression tree. -/
def litsOf : FilterExpression → List String
  | .tru => []
  | .lit t => [t]
  | .and l r => litsOf l ++ litsOf r
  | .or l r => litsOf l ++ litsOf r
  | .not e => litsOf e

/-! ## Session cache (the `login` command and `cy.session`) -/

/-- Modelled from the spec: SessionKey — the tuple
(actorIdentifier, credentialFingerprint) identifying a logical session,
with structural equality. -/
structure SessionKey : Type where
  actorIdentifier : String
  credentialFingerprint : String
deriving DecidableEq, Repr

/-- Outcome of one `getOrCreate` call: the produced session or error, the
cache afterwards, and how many times this call invoked `createFn`. -/
structure CacheResult (ε α : Type) : Type where
  result : Except ε α
  cache : List (SessionKey × α)
  calls : Nat

/-- Modelled from the spec: the Session Cache `getOrCreate(key, createFn)`
realized by `cy.session`, whose implementation is not part of this
repository — a hit returns the cached session without invoking
`createFn`; a miss invokes it once, caching the session on success and
caching nothing on failure. -/
def getOrCreate {ε α : Type} (cache : List (SessionKey × α)) (k : SessionKey)
    (createFn : Unit → Except ε α) : CacheResult ε α :=
  match lookupA cache k with
  | some s => ⟨.ok s, cache, 0⟩
  | none =>
    match createFn () with
    | .ok s => ⟨.ok s, (k, s) :: cache, 1⟩
    | .error e => ⟨.error e, cache, 1⟩

/-- The session cache key the custom `login` command passes to
`cy.session` (commands file, line 83): the literal array
`[username, password]`. -/
def loginSessionKey (username password : String) : List String :=
  [username, password]

/-! ## Concrete fixtures used by the claim theorems and witnesses -/

/-- Base configuration of the C1 scenario: `\x7btimeout:10000\x7d`, with the run
requesting the `qa` environment. -/
def qaClaimBase : Cfg :=
  { top := [("timeout", .num 10000)], env := [("environment", .str "qa")] }

/-- The overlay exactly as the C1 claim writes it:
`\x7benv:\x7bbaseUrl:"https://qa.example.com"\x7d\x7d` — `baseUrl` nested inside `env`,
no top-level `baseUrl`. -/
def qaClaimOverlay : EnvModule :=
  { top := [], env := [("baseUrl", .str "https://qa.example.com")] }

/-- The `qa` overlay as the repository actually ships it
(`cypress/config/qa.config.ts`): top-level `baseUrl` plus an `env`
sub-mapping. -/
def qaRepoOverlay : EnvModule :=
  { top := [("baseUrl", .str "https://qa.example.com")],
    env := [("apiUrl", .str "https://qa.example.com/api"), ("environment", .str "qa")] }

/-- The `local` overlay as the repository documents it
(`cypress/config/local.config.ts`). -/
def localRepoOverlay : EnvModule :=
  { top := [("baseUrl", .str "http://localhost:3000")],
    env := [("apiUrl", .str "http://localhost:3000/api"), ("environment", .str "local")] }

/-- Projection reading the resolved `baseUrl` out of a resolution result. -/
def baseUrlOf (r : Except String Cfg) : Option Prim :=
  match r with
  | .ok c => lookupA c.top "baseUrl"
  | .error _ => none

/-! ## C1 — shallow merge of the selected overlay -/

/-- C1 counterexample: at the claim's own inputs — base `\x7btimeout:10000\x7d`
and overlay `\x7benv:\x7bbaseUrl:"https://qa.example.com"\x7d\x7d` — the code sets
`config.baseUrl = envConfig.baseUrl`, which is `undefined` because the
overlay has no top-level `baseUrl`; the resolved `baseUrl` is `undefined`,
not `"https://qa.example.com"` as the claim states. -/
theorem resolve_qa_nested_baseUrl_refuted :
    baseUrlOf (setupNodeEvents qaClaimBase [("qa", qaClaimOverlay)]) = some Prim.undef ∧
    baseUrlOf (setupNodeEvents qaClaimBase [("qa", qaClaimOverlay)]) ≠
      some (Prim.str "https://qa.example.com") := by
  decide

/-- C1 (amended): resolution copies the overlay's top-level `baseUrl` onto
the configuration (storing `undefined` when the overlay exports none),
merges the `env` sub-mapping key-by-key with the overlay winning on
conflict, and leaves every other base field untouched, so base fields not
overridden survive. -/
theorem resolve_shallow_merge (config : Cfg) (modules : List (String × EnvModule))
    (m : EnvModule) (h : lookupA modules (selectedEnvironment config.env) = some m) :
    setupNodeEvents config modules = .ok (applyOverlay config m) ∧
    lookupA (applyOverlay config m).top "baseUrl" =
      some ((lookupA m.top "baseUrl").getD .undef) ∧
    (∀ k, lookupA (applyOverlay config m).env k =
      orO (lookupA m.env k) (lookupA config.env k)) ∧
    (∀ k, k ≠ "baseUrl" → lookupA (applyOverlay config m).top k = lookupA config.top k) := by
  refine ⟨?_, ?_, ?_, ?_⟩
  · unfold setupNodeEvents
    rw [h]
  · simp only [applyOverlay]
    exact lookupA_setA_self config.top "baseUrl" _
  · intro k
    simp only [applyOverlay]
    exact lookupA_spreadObj config.env m.env k
  · intro k hk
    simp only [applyOverlay]
    exact lookupA_setA_ne config.top "baseUrl" k _ hk

/-- Witness for C1 (amended): the repository's real `qa` overlay on the
`\x7btimeout:10000\x7d` base — `baseUrl` becomes `"https://qa.example.com"` and
`timeout` survives as `10000`. -/
theorem resolve_shallow_merge_witness :
    lookupA [("qa", qaRepoOverlay)] (selectedEnvironment qaClaimBase.env) = some qaRepoOverlay ∧
    (setupNodeEvents qaClaimBase [("qa", qaRepoOverlay)] =
      .ok (applyOverlay qaClaimBase qaRepoOverlay) ∧
    lookupA (applyOverlay qaClaimBase qaRepoOverlay).top "baseUrl" =
      some ((lookupA qaRepoOverlay.top "baseUrl").getD .undef) ∧
    (∀ k, lookupA (applyOverlay qaClaimBase qaRepoOverlay).env k =
      orO (lookupA qaRepoOverlay.env k) (lookupA qaClaimBase.env k)) ∧
    (∀ k, k ≠ "baseUrl" →
      lookupA (applyOverlay qaClaimBase qaRepoOverlay).top k = lookupA qaClaimBase.top k)) ∧
    lookupA (applyOverlay qaClaimBase qaRepoOverlay).top "timeout" = some (Prim.num 10000) ∧
    lookupA (applyOverlay qaClaimBase qaRepoOverlay).top "baseUrl" =
      some (Prim.str "https://qa.example.com") :=
  ⟨by decide,
   resolve_shallow_merge qaClaimBase [("qa", qaRepoOverlay)] qaRepoOverlay (by decide),
   by decide, by decide⟩

/-! ## C2 — unknown environment names fail fatally and diagnosably -/

/-- C2: when the selected environment name has no overlay module
registered, resolution fails — `setupNodeEvents` returns the module
resolution error instead of a configuration, so the run aborts before any
test executes — and the error message contains the offending environment
name. -/
theorem unknown_environment_fails (config : Cfg) (modules : List (String × EnvModule))
    (h : lookupA modules (selectedEnvironment config.env) = none) :
    setupNodeEvents config modules =
      .error ("Cannot find module ./cypress/config/" ++
        selectedEnvironment config.env ++ ".config") := by
  unfold setupNodeEvents
  rw [h]
  rfl

/-- Witness for C2: requesting environment `nowhere` while only `local`
is registered yields the module-not-found error naming `nowhere`. -/
theorem unknown_environment_fails_witness :
    lookupA [("local", localRepoOverlay)]
      (selectedEnvironment (Cfg.mk [] [("environment", Prim.str "nowhere")]).env) = none ∧
    setupNodeEvents (Cfg.mk [] [("environment", Prim.str "nowhere")])
        [("local", localRepoOverlay)] =
      .error ("Cannot find module ./cypress/config/" ++
        selectedEnvironment (Cfg.mk [] [("environment", Prim.str "nowhere")]).env ++
        ".config") :=
  ⟨by decide,
   unknown_environment_fails (Cfg.mk [] [("environment", Prim.str "nowhere")])
     [("local", localRepoOverlay)] (by decide)⟩

/-! ## C8 — frame: only `baseUrl` and `env` are touched -/

/-- C8: whenever resolution succeeds, every top-level configuration field
other than `baseUrl` (timeouts, retry counts, reporter options, ...) is
passed through into the effective configuration unchanged; the code
assigns only `config.baseUrl` and `config.env`. -/
theorem resolve_preserves_other_fields (config : Cfg) (modules : List (String × EnvModule))
    (out : Cfg) (h : setupNodeEvents config modules = .ok out)
    (k : String) (hk : k ≠ "baseUrl") :
    lookupA out.top k = lookupA config.top k := by
  unfold setupNodeEvents at h
  cases hm : lookupA modules (selectedEnvironment config.env) with
  | none =>
    rw [hm] at h
    exact absurd h (by simp)
  | some m =>
    rw [hm] at h
    have hout : applyOverlay config m = out := Except.ok.inj h
    subst hout
    simp only [applyOverlay]
    exact lookupA_setA_ne config.top "baseUrl" k _ hk

/-- Witness for C8: resolving the repository's `qa` overlay leaves the
`timeout` base field unchanged. -/
theorem resolve_preserves_other_fields_witness :
    setupNodeEvents qaClaimBase [("qa", qaRepoOverlay)] =
      .ok (applyOverlay qaClaimBase qaRepoOverlay) ∧
    ("timeout" : String) ≠ "baseUrl" ∧
    lookupA (applyOverlay qaClaimBase qaRepoOverlay).top "timeout" =
      lookupA qaClaimBase.top "timeout" :=
  ⟨by decide, by decide,
   resolve_preserves_other_fields qaClaimBase [("qa", qaRepoOverlay)]
     (applyOverlay qaClaimBase qaRepoOverlay) (by decide) "timeout" (by decide)⟩

/-! ## C10 — missing or falsy environment selector falls back to `local` -/

/-- True when `config.env.environment` is absent or a falsy value, i.e.
when `config.env.environment || 'local'` takes its right branch. -/
def environmentUnset (env : List (String × Prim)) : Bool :=
  match lookupA env "environment" with
  | none => true
  | some v => primFalsy v

/-- C10: when no environment name is supplied (the `environment` entry of
`config.env` is absent or falsy), resolution does not fail: it silently
resolves the `local` overlay, provided `local` is registered, exactly as
if `local` had been requested. -/
theorem default_environment_is_local (config : Cfg) (modules : List (String × EnvModule))
    (m : EnvModule) (h₁ : environmentUnset config.env = true)
    (h₂ : lookupA modules "local" = some m) :
    setupNodeEvents config modules = .ok (applyOverlay config m) := by
  have hsel : selectedEnvironment config.env = "local" := by
    unfold environmentUnset at h₁
    unfold selectedEnvironment
    cases hv : lookupA config.env "environment" with
    | none => rfl
    | some v =>
      rw [hv] at h₁
      simp only at h₁
      simp [h₁]
  unfold setupNodeEvents
  rw [hsel, h₂]

/-- Witness for C10: a configuration whose `env` carries no `environment`
entry resolves to the `local` overlay. -/
theorem default_environment_is_local_witness :
    environmentUnset (Cfg.mk [("timeout", Prim.num 10000)] []).env = true ∧
    lookupA [("local", localRepoOverlay)] "local" = some localRepoOverlay ∧
    setupNodeEvents (Cfg.mk [("timeout", Prim.num 10000)] []) [("local", localRepoOverlay)] =
      .ok (applyOverlay (Cfg.mk [("timeout", Prim.num 10000)] []) localRepoOverlay) :=
  ⟨by decide, by decide,
   default_environment_is_local (Cfg.mk [("timeout", Prim.num 10000)] [])
     [("local", localRepoOverlay)] localRepoOverlay (by decide) (by decide)⟩

/-! ## C3 — at-most-once session creation per key -/

/-- Concrete session key used by the cache witnesses. -/
def adminKey : SessionKey :=
  { actorIdentifier := "admin@example.com", credentialFingerprint := "fp-3f2a" }

/-- Concrete successful session creator used by the cache witnesses. -/
def okCreate : Unit → Except String Nat := fun _ => .ok 7

/-- Concrete failing session creator used by the cache witnesses. -/
def failCreate : Unit → Except String Nat := fun _ => .error "login failed"

/-- C3: for keys equal structurally (componentwise on `actorIdentifier`
and `credentialFingerprint`), a second `getOrCreate` call returns the
previously created session without re-invoking `createFn`: the second
call performs zero invocations, returns the same session value as the
first, and the first call itself invokes `createFn` at most once. -/
theorem getOrCreate_at_most_once {ε α : Type} (cache : List (SessionKey × α))
    (k₁ k₂ : SessionKey) (createFn : Unit → Except ε α) (s : α)
    (hid : k₁.actorIdentifier = k₂.actorIdentifier)
    (hfp : k₁.credentialFingerprint = k₂.credentialFingerprint)
    (hf : createFn () = .ok s) :
    (getOrCreate (getOrCreate cache k₁ createFn).cache k₂ createFn).result =
      (getOrCreate cache k₁ createFn).result ∧
    (getOrCreate (getOrCreate cache k₁ createFn).cache k₂ createFn).calls = 0 ∧
    (getOrCreate cache k₁ createFn).calls ≤ 1 := by
  have hk : k₁ = k₂ := by
    cases k₁
    cases k₂
    simp_all
  subst hk
  cases hc : lookupA cache k₁ with
  | some v => simp [getOrCreate, hc]
  | none => simp [getOrCreate, hc, hf, lookupA]

/-- Witness for C3: two calls for the admin key, starting from the empty
cache, return the same session and the second performs no invocation. -/
theorem getOrCreate_at_most_once_witness :
    adminKey.actorIdentifier = adminKey.actorIdentifier ∧
    adminKey.credentialFingerprint = adminKey.credentialFingerprint ∧
    okCreate () = .ok 7 ∧
    ((getOrCreate (getOrCreate ([] : List (SessionKey × Nat)) adminKey okCreate).cache
        adminKey okCreate).result =
      (getOrCreate ([] : List (SessionKey × Nat)) adminKey okCreate).result ∧
    (getOrCreate (getOrCreate ([] : List (SessionKey × Nat)) adminKey okCreate).cache
        adminKey okCreate).calls = 0 ∧
    (getOrCreate ([] : List (SessionKey × Nat)) adminKey okCreate).calls ≤ 1) :=
  ⟨rfl, rfl, rfl,
   getOrCreate_at_most_once [] adminKey adminKey okCreate 7 rfl rfl rfl⟩

/-! ## C7 — failed creation never poisons the cache -/

/-- C7: when `createFn` fails on a cache miss, its failure is reported but
not cached: the cache is returned unchanged, and a subsequent call with
the same key invokes its creator again from scratch. -/
theorem getOrCreate_failure_not_cached {ε α : Type} (cache : List (SessionKey × α))
    (k : SessionKey) (f₁ f₂ : Unit → Except ε α) (e : ε)
    (hmiss : lookupA cache k = none) (hf : f₁ () = .error e) :
    (getOrCreate cache k f₁).result = .error e ∧
    (getOrCreate cache k f₁).cache = cache ∧
    (getOrCreate cache k f₁).calls = 1 ∧
    (getOrCreate (getOrCreate cache k f₁).cache k f₂).calls = 1 := by
  refine ⟨?_, ?_, ?_, ?_⟩
  · simp [getOrCreate, hmiss, hf]
  · simp [getOrCreate, hmiss, hf]
  · simp [getOrCreate, hmiss, hf]
  · have hcache : (getOrCreate cache k f₁).cache = cache := by
      simp [getOrCreate, hmiss, hf]
    rw [hcache]
    cases hf₂ : f₂ () with
    | ok s => simp [getOrCreate, hmiss, hf₂]
    | error e₂ => simp [getOrCreate, hmiss, hf₂]

/-- Witness for C7: a failing login for the admin key leaves the empty
cache empty and the retry invokes its creator once. -/
theorem getOrCreate_failure_not_cached_witness :
    lookupA ([] : List (SessionKey × Nat)) adminKey = none ∧
    failCreate () = .error "login failed" ∧
    ((getOrCreate ([] : List (SessionKey × Nat)) adminKey failCreate).result =
      .error "login failed" ∧
    (getOrCreate ([] : List (SessionKey × Nat)) adminKey failCreate).cache = [] ∧
    (getOrCreate ([] : List (SessionKey × Nat)) adminKey failCreate).calls = 1 ∧
    (getOrCreate (getOrCreate ([] : List (SessionKey × Nat)) adminKey failCreate).cache
        adminKey okCreate).calls = 1) :=
  ⟨rfl, rfl,
   getOrCreate_failure_not_cached [] adminKey failCreate okCreate "login failed" rfl rfl⟩

/-! ## C4 — the login command's cache key carries the raw secret -/

/-- C4: contrary to the claim, the repository's `login` command passes the
plaintext password straight into the session cache key: at the
repository's default staging credentials the key is the two-element array
`[username, password]` and the raw secret `TestPassword123!` is one of
its components — no hash or opaque reference is taken. -/
theorem login_key_contains_raw_secret :
    loginSessionKey "test@example.com" "TestPassword123!" =
      ["test@example.com", "TestPassword123!"] ∧
    "TestPassword123!" ∈ loginSessionKey "test@example.com" "TestPassword123!" := by
  decide

/-! ## C5 — tags in expressions are normalized like TagSet tags -/

theorem litsOf_andOfList (ts : List String) : litsOf (andOfList ts) = ts := by
  induction ts with
  | nil => rfl
  | cons t rest ih =>
    cases rest with
    | nil => rfl
    | cons t₂ r₂ =>
      simp only [andOfList, litsOf]
      rw [ih]
      rfl

theorem litsOf_orOfList (es : List FilterExpression) :
    litsOf (orOfList es) = (es.map litsOf).flatten := by
  induction es with
  | nil => rfl
  | cons e rest ih =>
    cases rest with
    | nil => simp [orOfList, litsOf]
    | cons e₂ r₂ =>
      simp only [orOfList, litsOf]
      rw [ih]
      simp

theorem litsOf_foldlNeg (negs : List String) (base : FilterExpression) :
    litsOf (negs.foldl (fun e t => .and e (.not (.lit t))) base) = litsOf base ++ negs := by
  induction negs generalizing base with
  | nil => simp
  | cons t rest ih =>
    simp only [List.foldl_cons]
    rw [ih]
    simp [litsOf]

/-- C5: every literal tag inside a parsed filter expression is produced by
the same normalization as TagSet tags (lower-casing, leading-`@`
stripping), so parsing is invariant under case and leading-`@` variations
of the tags; in particular `"@smoke+@critical"` and `"@SMOKE+@Critical"`
parse to structurally equal trees, and so do `"smoke"` and `"@Smoke"`. -/
theorem parse_normalizes_tags :
    (∀ raw t, t ∈ litsOf (parseFilter raw) → ∃ s, t = normalizeTag s) ∧
    parseFilter "@smoke+@critical" = parseFilter "@SMOKE+@Critical" ∧
    parseFilter "@smoke+@critical" = .and (.lit "smoke") (.lit "critical") ∧
    parseFilter "smoke" = parseFilter "@Smoke" := by
  refine ⟨?_, by decide, by decide, by decide⟩
  intro raw t ht
  unfold parseFilter at ht
  rw [litsOf_foldlNeg] at ht
  rcases List.mem_append.1 ht with h | h
  · rw [litsOf_orOfList] at h
    rcases List.mem_flatten.1 h with ⟨l, hl, htl⟩
    rcases List.mem_map.1 hl with ⟨e, he, rfl⟩
    rcases List.mem_map.1 he with ⟨tok, _, rfl⟩
    unfold parseAndGroup at htl
    rw [litsOf_andOfList] at htl
    rcases List.mem_map.1 htl with ⟨cs, _, rfl⟩
    exact ⟨String.mk cs, rfl⟩
  · rcases List.mem_map.1 h with ⟨tok, _, rfl⟩
    exact ⟨String.mk (tok.drop 1), rfl⟩

/-- Witness for C5: the literal `smoke` of the parsed `"@smoke"` filter is
in the image of tag normalization. -/
theorem parse_normalizes_tags_witness :
    ("smoke" ∈ litsOf (parseFilter "@smoke")) ∧ ∃ s, "smoke" = normalizeTag s :=
  ⟨by decide, parse_normalizes_tags.1 "@smoke" "smoke" (by decide)⟩

/-! ## C6 — `"@smoke -@skip"` selects exactly smoke-and-not-skip -/

/-- C6: the filter `"@smoke -@skip"` parses to AND(smoke, NOT(skip)) and
therefore selects exactly the tests whose tag set contains `smoke` and
does not contain `skip`; on test A tagged `\x7bsmoke\x7d`, test B tagged
`\x7bsmoke, skip\x7d` and test C tagged `\x7bregression\x7d`, only A runs. -/
theorem smoke_minus_skip_selection :
    parseFilter "@smoke -@skip" = .and (.lit "smoke") (.not (.lit "skip")) ∧
    (∀ tags : List String, evaluate (parseFilter "@smoke -@skip") tags =
      (tags.contains "smoke" && !(tags.contains "skip"))) ∧
    evaluate (parseFilter "@smoke -@skip") (mkTagSet ["smoke"]) = true ∧
    evaluate (parseFilter "@smoke -@skip") (mkTagSet ["smoke", "skip"]) = false ∧
    evaluate (parseFilter "@smoke -@skip") (mkTagSet ["regression"]) = false := by
  have hp : parseFilter "@smoke -@skip" = .and (.lit "smoke") (.not (.lit "skip")) := by
    decide
  refine ⟨hp, ?_, by decide, by decide, by decide⟩
  intro tags
  rw [hp]
  rfl

/-- Witness for C6: the selection equation instantiated at test B's tag
set. -/
theorem smoke_minus_skip_selection_witness :
    evaluate (parseFilter "@smoke -@skip") ["smoke", "skip"] =
      ((["smoke", "skip"] : List String).contains "smoke" &&
        !((["smoke", "skip"] : List String).contains "skip")) :=
  smoke_minus_skip_selection.2.1 ["smoke", "skip"]

/-! ## C9 — the empty filter matches everything -/

/-- C9: the empty raw filter string parses to the universal-true
expression, and its evaluation returns `true` on every tag set, the empty
one included. -/
theorem empty_filter_matches_everything :
    parseFilter "" = .tru ∧
    (∀ tags : List String, evaluate (parseFilter "") tags = true) ∧
    evaluate (parseFilter "") [] = true := by
  have hp : parseFilter "" = .tru := by decide
  exact ⟨hp, fun tags => by rw [hp]; rfl, by decide⟩

/-- Witness for C9: the empty filter accepts the tag set of a test tagged
`\x7bregression\x7d`. -/
theorem empty_filter_matches_everything_witness :
    evaluate (parseFilter "") ["regression"] = true :=
  empty_filter_matches_everything.2.1 ["regression"]

end CypressFramework
